import Mathlib

/-!
Verification of the PortfolioLens dashboard (prediction.py).

This file gives a shallow embedding of the program's core: the ticker
resolution loop (fetch_stock_history), the CAGR computation (compute_cagr)
and the year-by-year compounding projection loop of analyze_stock.

Modelling conventions:
- Dates are whole numbers of days (ℤ): pandas timestamps subtract to a
  Timedelta whose .days attribute is an integer, and compute_cagr only ever
  uses that integer day count.
- Prices and money amounts are real numbers; the Python code computes with
  IEEE floats, which the embedding idealises as exact real arithmetic.
  One place where the idealisation is visible is division by zero: the
  prices in the code are numpy float64 values, so prices.iloc[-1] /
  prices.iloc[0] with a zero denominator silently produces an IEEE infinity
  (a value, not an exception), while plain Python float division such as
  1 / years raises ZeroDivisionError.  The embedding keeps exactly that
  split: the 1 / years division has an explicit error branch, the price
  ratio uses Lean's total real division (whose junk value at 0 stands in
  for the infinity; the only fact the development relies on there is that
  no exception is raised).
- The external yfinance provider is a parameter: a function from a symbol
  to a fetch outcome (raised exception, or a returned Close series).
- Python round(x, 2) and the :.2f format both round half to even; pyRound
  below implements that tie-breaking rule on exact reals.
-/

namespace PortfolioLens

/-- One point of a price series: date as a whole number of days and the
auto-adjusted Close price. -/
structure PricePoint where
  date : ℤ
  price : ℝ

/-- A pandas Series of Close prices together with its name.  The series
built by fetch_stock_history is renamed to the candidate symbol that
succeeded; the empty fallback pd.Series(dtype=float) has name None. -/
structure NamedSeries where
  name : Option String
  data : List PricePoint

/-- Outcome of one yf.Ticker(symbol).history call: either a returned frame
(whose Close column we keep, possibly empty) or a raised exception. -/
inductive FetchOutcome where
  | ok : List PricePoint → FetchOutcome
  | err : FetchOutcome

/-- The market-data provider, abstracted over: what yfinance answers for
each candidate symbol. -/
abbrev Provider := String → FetchOutcome

/-- Effect of the try/except around the history call: a raised exception
leaves history as an empty DataFrame, which the loop then skips. -/
def histOf : FetchOutcome → List PricePoint
  | .ok h => h
  | .err => []

/-- Python str.isspace characters removed by str.strip (ASCII range, which
covers ticker input). -/
def pyIsSpace (c : Char) : Bool :=
  c == ' ' || c == '\t' || c == '\n' || c == '\r' || c == '\x0b' || c == '\x0c'

/-- Python str.strip(): drop leading and trailing whitespace. -/
def pyStrip (s : String) : String :=
  ⟨((s.data.dropWhile pyIsSpace).reverse.dropWhile pyIsSpace).reverse⟩

/-- Python str.upper() on one character, for the ASCII range that ticker
symbols use. -/
def pyUpperChar (c : Char) : Char :=
  if 'a' ≤ c ∧ c ≤ 'z' then Char.ofNat (c.toNat - 32) else c

/-- Python str.upper(). -/
def pyUpper (s : String) : String :=
  ⟨s.data.map pyUpperChar⟩

/-- The source line ticker = ticker.strip().upper(). -/
def normalizeTicker (t : String) : String :=
  pyUpper (pyStrip t)

/-- Candidate symbol formats tried in order: NSE suffix, BSE suffix, then
the plain ticker (source line: candidates = [f"{ticker}.NS", f"{ticker}.BO", ticker]
written here with explicit appends). -/
def candidatesOf (t : String) : List String :=
  [t ++ ".NS", t ++ ".BO", t]

/-- The for-loop over candidates: skip a candidate whose (possibly
exception-replaced) history is empty, otherwise return its Close series
renamed to that candidate symbol. -/
def resolveCandidates (p : Provider) : List String → NamedSeries
  | [] => ⟨none, []⟩
  | s :: rest =>
    match histOf (p s) with
    | [] => resolveCandidates p rest
    | q :: qs => ⟨some s, q :: qs⟩

/-- fetch_stock_history: normalise the ticker with strip().upper(), then
try the candidate symbols in order; if nothing worked, return the empty
unnamed series. -/
def fetch_stock_history (p : Provider) (ticker : String) : NamedSeries :=
  resolveCandidates p (candidatesOf (normalizeTicker ticker))

/-- Python exceptions that the modelled code can raise. -/
inductive PyError where
  | valueError : String → PyError
  | zeroDivisionError : PyError
  | indexError : PyError

/-- Boolean test that an Except value is a success. -/
def isOkB : Except PyError ℝ → Bool
  | .ok _ => true
  | .error _ => false

/-- compute_cagr: days is the integer day count between the last and first
index entries, years = days / 365.0, and the result is
(last / first) ** (1 / years) - 1.  The 1 / years operation is plain float
division and raises ZeroDivisionError when years is 0; on an empty series
the iloc accesses raise IndexError.  The price ratio is numpy division and
never raises (see the file comment). -/
noncomputable def compute_cagr (prices : List PricePoint) : Except PyError ℝ :=
  match prices with
  | [] => .error .indexError
  | p0 :: rest =>
    let pn := (p0 :: rest).getLast (List.cons_ne_nil p0 rest)
    let days : ℤ := pn.date - p0.date
    let years : ℝ := (days : ℝ) / 365
    if years = 0 then .error .zeroDivisionError
    else .ok ((pn.price / p0.price) ^ ((1 : ℝ) / years) - 1)

/-- Python round to integer with the banker's (half to even) tie rule. -/
noncomputable def pyRound (x : ℝ) : ℤ :=
  if x - ⌊x⌋ < 1 / 2 then ⌊x⌋
  else if 1 / 2 < x - ⌊x⌋ then ⌊x⌋ + 1
  else if 2 ∣ ⌊x⌋ then ⌊x⌋ else ⌊x⌋ + 1

/-- Python round(x, 2): round to the nearest multiple of 0.01. -/
noncomputable def round2 (x : ℝ) : ℝ :=
  (pyRound (x * 100) : ℝ) / 100

/-- Two-digit zero padding for the fractional part of a :.2f rendering. -/
def pad2 (r : ℕ) : String :=
  if r < 10 then "0" ++ toString r else toString r

/-- Rendering of the :.2f format specifier on a real value. -/
noncomputable def fmt2 (x : ℝ) : String :=
  let n := pyRound (x * 100)
  if n < 0 then "-" ++ toString ((-n).toNat / 100) ++ "." ++ pad2 ((-n).toNat % 100)
  else toString (n.toNat / 100) ++ "." ++ pad2 (n.toNat % 100)

/-- Rendering of the :.0f format specifier on a real value. -/
noncomputable def fmt0 (x : ℝ) : String :=
  toString (pyRound x)

/-- Module-level constant: maximum CAGR threshold for warnings. -/
noncomputable def SAFE_CAGR_CAP : ℝ := 0.15

/-- The warning f-string:
CAGR followed by cagr*100 at two decimals, then the cap at zero decimals. -/
noncomputable def warningMsg (cagr : ℝ) : String :=
  "CAGR " ++ fmt2 (cagr * 100) ++ "% > " ++ fmt0 (SAFE_CAGR_CAP * 100) ++ "% cap"

/-- One entry of the projections list built by analyze_stock. -/
structure Projection where
  year : ℕ
  proj_price : ℝ
  profit_pct : ℝ
  profit_amt : ℝ

/-- Best-effort metadata for a resolved symbol: the sector and currency
keys of the yfinance info dictionary, each possibly absent. -/
structure StockInfo where
  sector : Option String
  currency : Option String

/-- The analysis dictionary returned by analyze_stock. -/
structure Analysis where
  ticker : String
  sector : String
  currency : String
  cagr_pct : ℝ
  buy_price : ℝ
  projections : List Projection
  warning : Option String

/-- Body of one iteration of the projection loop: growth_factor is
(1 + cagr) ** year and the three derived figures are rounded to 2 decimal
places when appended. -/
noncomputable def projEntry (cagr current_price invested_amount : ℝ) (year : ℕ) :
    Projection :=
  let growth_factor := (1 + cagr) ^ year
  { year := year
    proj_price := round2 (current_price * growth_factor)
    profit_pct := round2 ((growth_factor - 1) * 100)
    profit_amt := round2 (invested_amount * (growth_factor - 1)) }

/-- The projection loop: for year in range(1, projection_years + 1). -/
noncomputable def buildProjections (cagr current_price invested_amount : ℝ)
    (projection_years : ℕ) : List Projection :=
  (List.range' 1 projection_years).map (projEntry cagr current_price invested_amount)

/-- analyze_stock: fetch, raise ValueError naming the input ticker when the
fetched series is empty, best-effort info lookup (an exception yields the
empty dict, so every .get falls back to its default), compute the CAGR
once, take the last Close as current price, and build the projections and
the warning from that single cagr value. -/
noncomputable def analyze_stock (p : Provider) (info : String → Option StockInfo)
    (ticker : String) (invested_amount : ℝ) (projection_years : ℕ) :
    Except PyError (NamedSeries × Analysis) :=
  let prices := fetch_stock_history p ticker
  match prices.data with
  | [] => .error (.valueError ("No price data available for " ++ ticker))
  | p0 :: rest =>
    let final_ticker := prices.name.getD ""
    let stock_info := (info final_ticker).getD ⟨none, none⟩
    match compute_cagr (p0 :: rest) with
    | .error e => .error e
    | .ok cagr =>
      let current_price := ((p0 :: rest).getLast (List.cons_ne_nil p0 rest)).price
      .ok (prices,
        { ticker := final_ticker
          sector := stock_info.sector.getD "N/A"
          currency := stock_info.currency.getD "N/A"
          cagr_pct := round2 (cagr * 100)
          buy_price := round2 current_price
          projections := buildProjections cagr current_price invested_amount projection_years
          warning := if SAFE_CAGR_CAP < cagr then some (warningMsg cagr) else none })

/-! Helper lemmas shared by the claim theorems. -/

/-- Unfolding equation for compute_cagr on a nonempty series whose elapsed
time is nonzero. -/
lemma compute_cagr_cons (p0 : PricePoint) (rest : List PricePoint)
    (hy : ((((p0 :: rest).getLast (List.cons_ne_nil p0 rest)).date - p0.date : ℤ) : ℝ) / 365 ≠ 0) :
    compute_cagr (p0 :: rest) =
      .ok ((((p0 :: rest).getLast (List.cons_ne_nil p0 rest)).price / p0.price) ^
            ((1 : ℝ) / (((((p0 :: rest).getLast (List.cons_ne_nil p0 rest)).date - p0.date : ℤ) : ℝ) / 365)) - 1) := by
  simp only [compute_cagr]
  rw [if_neg hy]

/-- pyRound is the identity on integer values. -/
lemma pyRound_intCast (n : ℤ) : pyRound ((n : ℝ)) = n := by
  simp [pyRound, Int.floor_intCast]

/-- round2 is the identity on integer values. -/
lemma round2_intCast (n : ℤ) : round2 ((n : ℝ)) = (n : ℝ) := by
  have h : ((n : ℝ)) * 100 = ((n * 100 : ℤ) : ℝ) := by push_cast; ring
  rw [round2, h, pyRound_intCast]
  push_cast
  ring

/-- The resolver loop returns exactly the first candidate whose
(exception-adjusted) history is nonempty. -/
lemma resolveCandidates_eq_find (p : Provider) (l : List String) :
    resolveCandidates p l =
      match l.find? (fun s => !(histOf (p s)).isEmpty) with
      | some s => ⟨some s, histOf (p s)⟩
      | none => ⟨none, []⟩ := by
  induction l with
  | nil => rfl
  | cons s rest ih =>
    cases hh : histOf (p s) with
    | nil =>
      simp only [resolveCandidates, hh, List.find?, List.isEmpty_nil, Bool.not_true]
      exact ih
    | cons q qs =>
      simp only [resolveCandidates, hh, List.find?, List.isEmpty_cons, Bool.not_false, hh]

/-- Replacing every raised exception by a returned empty frame leaves the
resolver loop unchanged. -/
lemma resolveCandidates_err_as_empty (p : Provider) (l : List String) :
    resolveCandidates (fun s => FetchOutcome.ok (histOf (p s))) l = resolveCandidates p l := by
  induction l with
  | nil => rfl
  | cons s rest ih =>
    simp only [resolveCandidates]
    have hk : histOf (FetchOutcome.ok (histOf (p s))) = histOf (p s) := rfl
    rw [hk]
    cases hh : histOf (p s) with
    | nil => exact ih
    | cons q qs => rfl

/-- Anatomy of a successful resolution: the resolved symbol is one of the
candidates and the returned data is its nonempty history. -/
lemma resolveCandidates_some (p : Provider) (l : List String) (s : String)
    (hist : List PricePoint) (h : resolveCandidates p l = ⟨some s, hist⟩) :
    s ∈ l ∧ hist = histOf (p s) ∧ hist ≠ [] := by
  induction l with
  | nil => simp [resolveCandidates] at h
  | cons c rest ih =>
    rcases hh : histOf (p c) with _ | ⟨q, qs⟩
    · rw [resolveCandidates, hh] at h
      obtain ⟨h1, h2, h3⟩ := ih h
      exact ⟨List.mem_cons_of_mem c h1, h2, h3⟩
    · rw [resolveCandidates, hh] at h
      obtain ⟨rfl, rfl⟩ : c = s ∧ q :: qs = hist := by
        simpa [NamedSeries.mk.injEq] using h
      exact ⟨List.mem_cons_self c rest, hh.symm, List.cons_ne_nil q qs⟩

/-- When every candidate resolves to an empty history the loop falls
through to the empty unnamed series. -/
lemma resolveCandidates_all_empty (p : Provider) (l : List String)
    (h : ∀ s ∈ l, histOf (p s) = []) :
    resolveCandidates p l = ⟨none, []⟩ := by
  induction l with
  | nil => rfl
  | cons c rest ih =>
    rw [resolveCandidates, h c (List.mem_cons_self c rest)]
    exact ih fun s hs => h s (List.mem_cons_of_mem c hs)

/-- The projection loop emits one entry per year. -/
lemma buildProjections_length (cagr current_price invested_amount : ℝ) (N : ℕ) :
    (buildProjections cagr current_price invested_amount N).length = N := by
  simp [buildProjections]

/-- The year fields of the projection loop are 1, 2, ..., N in order. -/
lemma buildProjections_map_year (cagr current_price invested_amount : ℝ) (N : ℕ) :
    (buildProjections cagr current_price invested_amount N).map Projection.year =
      List.range' 1 N := by
  simp only [buildProjections, List.map_map]
  have h : (Projection.year ∘ projEntry cagr current_price invested_amount) = id := by
    funext y
    simp [projEntry]
  rw [h, List.map_id]

/-- Inversion principle for a successful analyze_stock run: the fetched
series is nonempty, the CAGR computation succeeded, and the returned
dictionary is built from that single cagr value and the last Close. -/
lemma analyze_stock_ok (p : Provider) (info : String → Option StockInfo)
    (ticker : String) (invested_amount : ℝ) (projection_years : ℕ)
    (pr : NamedSeries) (a : Analysis)
    (h : analyze_stock p info ticker invested_amount projection_years = .ok (pr, a)) :
    ∃ (p0 : PricePoint) (rest : List PricePoint) (cagr : ℝ),
      (fetch_stock_history p ticker).data = p0 :: rest ∧
      pr = fetch_stock_history p ticker ∧
      compute_cagr (p0 :: rest) = .ok cagr ∧
      a = { ticker := (fetch_stock_history p ticker).name.getD ""
            sector := ((info ((fetch_stock_history p ticker).name.getD "")).getD ⟨none, none⟩).sector.getD "N/A"
            currency := ((info ((fetch_stock_history p ticker).name.getD "")).getD ⟨none, none⟩).currency.getD "N/A"
            cagr_pct := round2 (cagr * 100)
            buy_price := round2 (((p0 :: rest).getLast (List.cons_ne_nil p0 rest)).price)
            projections := buildProjections cagr
              (((p0 :: rest).getLast (List.cons_ne_nil p0 rest)).price)
              invested_amount projection_years
            warning := if SAFE_CAGR_CAP < cagr then some (warningMsg cagr) else none } := by
  rcases hd : (fetch_stock_history p ticker).data with _ | ⟨p0, rest⟩
  · rw [analyze_stock] at h
    simp only [hd] at h
    exact Except.noConfusion h
  · rw [analyze_stock] at h
    simp only [hd] at h
    rcases hc : compute_cagr (p0 :: rest) with e | cagr
    · simp only [hc] at h
      exact Except.noConfusion h
    · simp only [hc] at h
      have h1 := Except.ok.inj h
      injection h1 with h2 h3
      exact ⟨p0, rest, cagr, rfl, h2.symm, hc, h3.symm⟩

/-! Concrete provider instances used to instantiate the theorems. -/

/-- Provider answering a two-point doubling series for Y.NS and an empty
frame for every other symbol. -/
noncomputable def pY : Provider :=
  fun s => if s = "Y.NS" then .ok [⟨0, 100⟩, ⟨365, 200⟩] else .ok []

/-- Info lookup that always raises, so the code falls back to the empty
dictionary. -/
def ipN : String → Option StockInfo := fun _ => none

/-- Provider that raises on every symbol. -/
def pNone : Provider := fun _ => .err

/-- Provider with an empty .NS answer and a nonempty .BO answer. -/
noncomputable def pAB : Provider :=
  fun s => if s = "AB.BO" then .ok [⟨0, 1⟩] else .ok []

/-- The named series that pY resolves to. -/
noncomputable def prY : NamedSeries := ⟨some "Y.NS", [⟨0, 100⟩, ⟨365, 200⟩]⟩

/-- The analysis dictionary produced from pY with 1000 invested over one
projected year: the price doubled over exactly one year, so cagr = 1. -/
noncomputable def aY : Analysis :=
  { ticker := "Y.NS", sector := "N/A", currency := "N/A", cagr_pct := 100,
    buy_price := 200, projections := [⟨1, 400, 100, 1000⟩],
    warning := some "CAGR 100.00% > 15% cap" }

lemma fetch_pY : fetch_stock_history pY "y" = prY := rfl

lemma cagr_prY : compute_cagr prY.data = .ok 1 := by
  rw [show compute_cagr prY.data =
        .ok (((200 : ℝ) / 100) ^ ((1 : ℝ) / ((((365 : ℤ) - 0 : ℤ) : ℝ) / 365)) - 1) from
      compute_cagr_cons ⟨0, 100⟩ [⟨365, 200⟩] (by norm_num)]
  have e1 : ((1 : ℝ) / ((((365 : ℤ) - 0 : ℤ) : ℝ) / 365)) = 1 := by norm_num
  rw [e1, Real.rpow_one]
  norm_num

lemma round2_one_mul : round2 ((1 : ℝ) * 100) = 100 := by
  rw [show ((1 : ℝ) * 100) = ((100 : ℤ) : ℝ) by norm_num, round2_intCast]
  norm_num

lemma round2_twoHundred : round2 ((200 : ℝ)) = 200 := by
  rw [show ((200 : ℝ)) = ((200 : ℤ) : ℝ) by norm_num, round2_intCast]

lemma fmt2_hundred : fmt2 ((1 : ℝ) * 100) = "100.00" := by
  have h1 : pyRound (((1 : ℝ) * 100) * 100) = 10000 := by
    rw [show (((1 : ℝ) * 100) * 100) = ((10000 : ℤ) : ℝ) by norm_num, pyRound_intCast]
  simp only [fmt2, h1]
  rfl

lemma fmt0_cap : fmt0 (SAFE_CAGR_CAP * 100) = "15" := by
  have h1 : pyRound (SAFE_CAGR_CAP * 100) = 15 := by
    rw [show (SAFE_CAGR_CAP * 100 : ℝ) = ((15 : ℤ) : ℝ) by norm_num [SAFE_CAGR_CAP],
      pyRound_intCast]
  simp only [fmt0, h1]
  rfl

lemma warningMsg_one : warningMsg 1 = "CAGR 100.00% > 15% cap" := by
  rw [warningMsg, fmt2_hundred, fmt0_cap]
  rfl

lemma buildProjections_pY : buildProjections 1 200 1000 1 = [⟨1, 400, 100, 1000⟩] := by
  have e1 : ((200 : ℝ) * ((1 : ℝ) + 1) ^ (1 : ℕ)) = ((400 : ℤ) : ℝ) := by norm_num
  have e2 : ((((1 : ℝ) + 1) ^ (1 : ℕ) - 1) * 100) = ((100 : ℤ) : ℝ) := by norm_num
  have e3 : ((1000 : ℝ) * (((1 : ℝ) + 1) ^ (1 : ℕ) - 1)) = ((1000 : ℤ) : ℝ) := by norm_num
  simp only [buildProjections, List.range', List.map, projEntry]
  rw [e1, e2, e3, round2_intCast, round2_intCast, round2_intCast]
  norm_num

lemma analyze_pY : analyze_stock pY ipN "y" 1000 1 = .ok (prY, aY) := by
  rw [analyze_stock]
  simp only [fetch_pY, prY]
  rw [show compute_cagr [(⟨0, 100⟩ : PricePoint), ⟨365, 200⟩] = Except.ok 1 from cagr_prY]
  have hlast : ∀ h, (([(⟨0, 100⟩ : PricePoint), ⟨365, 200⟩]).getLast h) = ⟨365, 200⟩ :=
    fun _ => rfl
  simp only [hlast]
  rw [if_pos (show SAFE_CAGR_CAP < (1 : ℝ) by norm_num [SAFE_CAGR_CAP])]
  rw [warningMsg_one, round2_one_mul, round2_twoHundred, buildProjections_pY]
  simp [ipN, aY]

/-! Claim theorems. -/

/-- C1: for every price series whose first and last dates differ,
compute_cagr returns (last_price / first_price) ^ (365 / elapsed_days) - 1
(the code computes (last / first) ** (1 / (days / 365)), which is the same
exponent).  And on the code-realisable form of the spec's doubling example
(pandas .days is an integer, so a doubling over 1826 whole days, the
closest series to the spec's 1826.25), the result is within 0.001 of
0.1487, i.e. approximately 14.87%. -/
theorem compute_cagr_closed_form :
    (∀ (l : List PricePoint) (h : l ≠ []),
      ((l.getLast h).date - (l.head h).date : ℤ) ≠ 0 →
      compute_cagr l =
        .ok (((l.getLast h).price / (l.head h).price) ^
              ((365 : ℝ) / (((l.getLast h).date - (l.head h).date : ℤ) : ℝ)) - 1)) ∧
    (∀ r : ℝ, compute_cagr [⟨0, 100⟩, ⟨1826, 200⟩] = .ok r → |r - 0.1487| < 1 / 1000) := by
  have main : ∀ (l : List PricePoint) (h : l ≠ []),
      ((l.getLast h).date - (l.head h).date : ℤ) ≠ 0 →
      compute_cagr l =
        .ok (((l.getLast h).price / (l.head h).price) ^
              ((365 : ℝ) / (((l.getLast h).date - (l.head h).date : ℤ) : ℝ)) - 1) := by
    intro l h hd
    cases l with
    | nil => exact absurd rfl h
    | cons p0 rest =>
      have hd' : ((p0 :: rest).getLast (List.cons_ne_nil p0 rest)).date - p0.date ≠ 0 := hd
      have hy : ((((p0 :: rest).getLast (List.cons_ne_nil p0 rest)).date - p0.date : ℤ) : ℝ) / 365 ≠ 0 :=
        div_ne_zero (Int.cast_ne_zero.mpr hd') (by norm_num)
      rw [compute_cagr_cons p0 rest hy, one_div_div]
      rfl
  refine ⟨main, ?_⟩
  intro r hr
  have h1 := main [⟨0, 100⟩, ⟨1826, 200⟩] (List.cons_ne_nil _ _) (by decide)
  rw [h1] at hr
  obtain rfl := Except.ok.inj hr
  show |((200 : ℝ) / 100) ^ ((365 : ℝ) / (((1826 : ℤ) - 0 : ℤ) : ℝ)) - 1 - 0.1487| < 1 / 1000
  rw [show (((1826 : ℤ) - 0 : ℤ) : ℝ) = 1826 by norm_num,
    show (200 : ℝ) / 100 = 2 by norm_num]
  have key : ((2 : ℝ) ^ ((365 : ℝ) / 1826)) ^ (1826 : ℕ) = 2 ^ (365 : ℕ) := by
    have e1 : ((365 : ℝ) / 1826) * ((1826 : ℕ) : ℝ) = ((365 : ℕ) : ℝ) := by norm_num
    rw [← Real.rpow_natCast ((2 : ℝ) ^ ((365 : ℝ) / 1826)) 1826,
      ← Real.rpow_mul (by norm_num : (0 : ℝ) ≤ 2), e1, Real.rpow_natCast]
  have hpos : (0 : ℝ) ≤ 2 ^ ((365 : ℝ) / 1826) :=
    (Real.rpow_pos_of_pos (by norm_num) _).le
  have hlow : (11477 : ℝ) / 10000 < 2 ^ ((365 : ℝ) / 1826) := by
    apply lt_of_pow_lt_pow_left₀ 1826 hpos
    rw [key]
    norm_num
  have hhigh : 2 ^ ((365 : ℝ) / 1826) < (11497 : ℝ) / 10000 := by
    apply lt_of_pow_lt_pow_left₀ 1826 (by norm_num)
    rw [key]
    norm_num
  rw [abs_lt]
  constructor
  · linarith
  · linarith

/-- Witness for C1: the closed form evaluated on a concrete two-point
series (100 to 400 over 730 days). -/
theorem compute_cagr_closed_form_witness :
    compute_cagr [⟨0, 100⟩, ⟨730, 400⟩] =
      .ok (((400 : ℝ) / 100) ^ ((365 : ℝ) / (((730 : ℤ) - 0 : ℤ) : ℝ)) - 1) := by
  exact compute_cagr_closed_form.1 [⟨0, 100⟩, ⟨730, 400⟩] (List.cons_ne_nil _ _) (by decide)

/-- C2 counterexample: with first price 0 and distinct dates (one year
apart), compute_cagr returns a value instead of failing with a defined
error.  In the Python code the numpy float64 ratio 100.0 / 0.0 silently
produces an IEEE infinity with only a RuntimeWarning, so the function
returns inf; the embedding mirrors the control flow (no error branch is
taken), with Lean's total real division standing in for the infinity. -/
theorem compute_cagr_zero_first_price_no_error :
    isOkB (compute_cagr [⟨0, 0⟩, ⟨365, 100⟩]) = true := by
  rw [compute_cagr_cons ⟨0, 0⟩ [⟨365, 100⟩] (by norm_num)]
  rfl

/-- C2 (amended): when the first and last dates of the series coincide
(elapsed_days == 0, e.g. a single data point) the plain-float division
1 / years raises ZeroDivisionError, so compute_cagr fails rather than
returning a value; but when the first price is 0 and the dates differ,
compute_cagr does NOT fail: the numpy price ratio silently evaluates to an
infinity, which is propagated and returned as a value. -/
theorem compute_cagr_degenerate :
    (∀ (l : List PricePoint) (h : l ≠ []),
      (l.getLast h).date = (l.head h).date →
      compute_cagr l = .error .zeroDivisionError) ∧
    (∀ (l : List PricePoint) (h : l ≠ []),
      (l.head h).price = 0 → (l.getLast h).date ≠ (l.head h).date →
      isOkB (compute_cagr l) = true) := by
  constructor
  · intro l h hdate
    cases l with
    | nil => exact absurd rfl h
    | cons p0 rest =>
      have hz : ((((p0 :: rest).getLast (List.cons_ne_nil p0 rest)).date - p0.date : ℤ) : ℝ) / 365 = 0 := by
        rw [show ((p0 :: rest).getLast (List.cons_ne_nil p0 rest)).date = p0.date from hdate]
        simp
      simp only [compute_cagr]
      rw [if_pos hz]
  · intro l h _ hdate
    cases l with
    | nil => exact absurd rfl h
    | cons p0 rest =>
      have hd' : ((p0 :: rest).getLast (List.cons_ne_nil p0 rest)).date - p0.date ≠ 0 :=
        sub_ne_zero_of_ne hdate
      have hy : ((((p0 :: rest).getLast (List.cons_ne_nil p0 rest)).date - p0.date : ℤ) : ℝ) / 365 ≠ 0 :=
        div_ne_zero (Int.cast_ne_zero.mpr hd') (by norm_num)
      rw [compute_cagr_cons p0 rest hy]
      rfl

/-- Witness for C2: a single data point (first and last dates coincide)
makes compute_cagr fail with ZeroDivisionError. -/
theorem compute_cagr_degenerate_witness :
    compute_cagr [⟨0, 100⟩] = .error .zeroDivisionError :=
  compute_cagr_degenerate.1 [⟨0, 100⟩] (List.cons_ne_nil _ _) rfl

/-- C3: entry y (1-indexed) of the projection loop carries exactly
current_price * (1 + c) ^ y, ((1 + c) ^ y - 1) * 100 and
invested_amount * ((1 + c) ^ y - 1), each rounded to 2 decimal places; the
witness instantiates the spec's example c = 10%, N = 3, year 3. -/
theorem projection_entry_formula (c cp inv : ℝ) (N y : ℕ)
    (h1 : 1 ≤ y) (h2 : y ≤ N) :
    (buildProjections c cp inv N)[y - 1]? =
      some { year := y
             proj_price := round2 (cp * (1 + c) ^ y)
             profit_pct := round2 (((1 + c) ^ y - 1) * 100)
             profit_amt := round2 (inv * ((1 + c) ^ y - 1)) } := by
  have hlt : y - 1 < N := by omega
  rw [buildProjections, List.getElem?_map,
    List.getElem?_eq_getElem (by simpa using hlt), List.getElem_range']
  have hy : 1 + 1 * (y - 1) = y := by omega
  rw [hy]
  rfl

/-- Witness for C3: with CAGR 10% and horizon 3 years, the year-3 entry is
the current price times 1.1 cubed, within 2-decimal rounding. -/
theorem projection_entry_formula_witness :
    (buildProjections (1 / 10 : ℝ) 100 1000 3)[3 - 1]? =
      some { year := 3
             proj_price := round2 ((100 : ℝ) * (1 + 1 / 10) ^ (3 : ℕ))
             profit_pct := round2 ((((1 : ℝ) + 1 / 10) ^ (3 : ℕ) - 1) * 100)
             profit_amt := round2 ((1000 : ℝ) * ((1 + 1 / 10) ^ (3 : ℕ) - 1)) } :=
  projection_entry_formula (1 / 10) 100 1000 3 3 (by norm_num) (by norm_num)

/-- C4: a successful analyze_stock run returns exactly N projection
entries whose year fields are the integers 1..N in strictly ascending
order with no duplicates and no gaps: the list of years is precisely
List.range' 1 N. -/
theorem projections_years_exact (p : Provider) (ip : String → Option StockInfo)
    (t : String) (inv : ℝ) (N : ℕ) (pr : NamedSeries) (a : Analysis)
    (h : analyze_stock p ip t inv N = .ok (pr, a)) :
    a.projections.length = N ∧
    a.projections.map Projection.year = List.range' 1 N := by
  obtain ⟨p0, rest, cagr, hd, hpr, hc, ha⟩ := analyze_stock_ok p ip t inv N pr a h
  subst ha
  exact ⟨buildProjections_length _ _ _ _, buildProjections_map_year _ _ _ _⟩

/-- Witness for C4: the concrete pY run with horizon 1. -/
theorem projections_years_exact_witness :
    aY.projections.length = 1 ∧
    aY.projections.map Projection.year = List.range' 1 1 :=
  projections_years_exact pY ipN "y" 1000 1 prY aY analyze_pY

/-- C5: in a successful analyze_stock run whose computed CAGR is c, the
warning field is non-null iff c > SAFE_CAGR_CAP — strictly, so a CAGR of
exactly 0.15 yields no warning — and when present it is the human-readable
message carrying the :.2f-formatted percentage c * 100. -/
theorem warning_iff_cagr_above_cap (p : Provider) (ip : String → Option StockInfo)
    (t : String) (inv : ℝ) (N : ℕ) (pr : NamedSeries) (a : Analysis) (c : ℝ)
    (h : analyze_stock p ip t inv N = .ok (pr, a))
    (hc : compute_cagr pr.data = .ok c) :
    (a.warning ≠ none ↔ SAFE_CAGR_CAP < c) ∧
    (SAFE_CAGR_CAP < c →
      a.warning = some ("CAGR " ++ fmt2 (c * 100) ++ "% > 15% cap")) := by
  obtain ⟨p0, rest, cagr, hd, hpr, hcc, ha⟩ := analyze_stock_ok p ip t inv N pr a h
  rw [hpr, hd] at hc
  rw [hcc] at hc
  obtain rfl := Except.ok.inj hc
  subst ha
  constructor
  · by_cases hlt : SAFE_CAGR_CAP < cagr
    · simp [hlt]
    · simp [hlt]
  · intro hlt
    show (if SAFE_CAGR_CAP < cagr then some (warningMsg cagr) else none) = _
    rw [if_pos hlt, warningMsg, fmt0_cap]
    simp only [String.append_assoc]
    rfl

/-- Witness for C5: the pY run has CAGR 1 > 0.15 and carries the warning
message with the formatted percentage. -/
theorem warning_iff_cagr_above_cap_witness :
    aY.warning = some ("CAGR " ++ fmt2 ((1 : ℝ) * 100) ++ "% > 15% cap") :=
  (warning_iff_cagr_above_cap pY ipN "y" 1000 1 prY aY 1 analyze_pY cagr_prY).2
    (by norm_num [SAFE_CAGR_CAP])

/-- C6: fetch_stock_history tries the candidates in their fixed order, a
raised fetch error behaves exactly like an empty result, and the returned
series is that of the first candidate with nonempty data, named after that
candidate; with the .NS candidate empty and the .BO candidate nonempty the
resolved symbol is the .BO one, never the .NS one. -/
theorem fetch_first_nonempty (p : Provider) (t : String) :
    (fetch_stock_history p t =
      match (candidatesOf (normalizeTicker t)).find? (fun s => !(histOf (p s)).isEmpty) with
      | some s => ⟨some s, histOf (p s)⟩
      | none => ⟨none, []⟩) ∧
    fetch_stock_history (fun s => FetchOutcome.ok (histOf (p s))) t = fetch_stock_history p t ∧
    (histOf (p (normalizeTicker t ++ ".NS")) = [] →
      histOf (p (normalizeTicker t ++ ".BO")) ≠ [] →
      fetch_stock_history p t =
        ⟨some (normalizeTicker t ++ ".BO"), histOf (p (normalizeTicker t ++ ".BO"))⟩) := by
  refine ⟨resolveCandidates_eq_find p _, resolveCandidates_err_as_empty p _, ?_⟩
  intro h1 h2
  simp only [fetch_stock_history, candidatesOf, resolveCandidates, h1]
  rcases hh : histOf (p (normalizeTicker t ++ ".BO")) with _ | ⟨q, qs⟩
  · exact absurd hh h2
  · rfl

/-- Witness for C6: with an empty .NS answer and a nonempty .BO answer the
resolver returns the .BO candidate and its data. -/
theorem fetch_first_nonempty_witness :
    fetch_stock_history pAB "ab" = ⟨some "AB.BO", [⟨0, 1⟩]⟩ :=
  (fetch_first_nonempty pAB "ab").2.2 rfl (List.cons_ne_nil _ _)

/-- C7: when every candidate symbol yields an empty or erroring fetch,
fetch_stock_history returns the explicit empty no-data series instead of
crashing, and analyze_stock surfaces a recoverable ValueError whose
message names the original ticker. -/
theorem no_data_error (p : Provider) (ip : String → Option StockInfo)
    (t : String) (inv : ℝ) (N : ℕ)
    (h : ∀ s ∈ candidatesOf (normalizeTicker t), histOf (p s) = []) :
    fetch_stock_history p t = ⟨none, []⟩ ∧
    analyze_stock p ip t inv N =
      .error (.valueError ("No price data available for " ++ t)) := by
  have hf : fetch_stock_history p t = ⟨none, []⟩ :=
    resolveCandidates_all_empty p _ h
  refine ⟨hf, ?_⟩
  rw [analyze_stock]
  simp only [hf]

/-- Witness for C7: the provider that raises on every symbol. -/
theorem no_data_error_witness :
    fetch_stock_history pNone "zz" = ⟨none, []⟩ ∧
    analyze_stock pNone ipN "zz" 1000 2 =
      .error (.valueError ("No price data available for " ++ "zz")) :=
  no_data_error pNone ipN "zz" 1000 2 (fun _ _ => rfl)

/-- C8: a successful analyze_stock run draws every projected figure from
the single CAGR value that compute_cagr returns on the fetched series: the
reported cagr_pct is that c rounded, and every entry's growth factor is
(1 + c) ^ year with that same full-precision c applied to the last fetched
Close price; no entry uses a different or re-rounded rate. -/
theorem single_cagr_reused (p : Provider) (ip : String → Option StockInfo)
    (t : String) (inv : ℝ) (N : ℕ) (pr : NamedSeries) (a : Analysis) (c : ℝ)
    (q : PricePoint)
    (h : analyze_stock p ip t inv N = .ok (pr, a))
    (hc : compute_cagr pr.data = .ok c)
    (hq : pr.data.getLast? = some q) :
    a.cagr_pct = round2 (c * 100) ∧
    ∀ e ∈ a.projections,
      e.proj_price = round2 (q.price * (1 + c) ^ e.year) ∧
      e.profit_pct = round2 (((1 + c) ^ e.year - 1) * 100) ∧
      e.profit_amt = round2 (inv * ((1 + c) ^ e.year - 1)) := by
  obtain ⟨p0, rest, cagr, hd, hpr, hcc, ha⟩ := analyze_stock_ok p ip t inv N pr a h
  rw [hpr, hd] at hc hq
  rw [hcc] at hc
  obtain rfl := Except.ok.inj hc
  rw [List.getLast?_eq_getLast (p0 :: rest) (List.cons_ne_nil p0 rest)] at hq
  have hq' : (p0 :: rest).getLast (List.cons_ne_nil p0 rest) = q := Option.some.inj hq
  subst ha
  refine ⟨rfl, ?_⟩
  intro e he
  have he' : e ∈ (List.range' 1 N).map
      (projEntry cagr ((p0 :: rest).getLast (List.cons_ne_nil p0 rest)).price inv) := he
  rw [hq'] at he'
  obtain ⟨y, hy, rfl⟩ := List.mem_map.mp he'
  exact ⟨rfl, rfl, rfl⟩

/-- Witness for C8: the single projection entry of the pY run uses the
growth factor (1 + 1) ^ 1 from the computed CAGR 1 and the last Close
200. -/
theorem single_cagr_reused_witness :
    (400 : ℝ) = round2 ((200 : ℝ) * ((1 : ℝ) + 1) ^ (1 : ℕ)) ∧
    (100 : ℝ) = round2 ((((1 : ℝ) + 1) ^ (1 : ℕ) - 1) * 100) ∧
    (1000 : ℝ) = round2 ((1000 : ℝ) * (((1 : ℝ) + 1) ^ (1 : ℕ) - 1)) :=
  (single_cagr_reused pY ipN "y" 1000 1 prY aY 1 ⟨365, 200⟩ analyze_pY cagr_prY rfl).2
    ⟨1, 400, 100, 1000⟩ (by simp [aY])

/-- C9: failure of the metadata lookup is non-fatal and affects only the
sector and currency fields: a run whose info lookup always raises equals
the run with any other info function with its sector and currency replaced
by the "N/A" placeholders (so the error/success outcome, the CAGR figures
and the projections are unchanged); and any successful metadata-less run
carries the placeholders themselves. -/
theorem metadata_failure_nonfatal (p : Provider) (ip : String → Option StockInfo)
    (t : String) (inv : ℝ) (N : ℕ) :
    (analyze_stock p (fun _ => none) t inv N =
      (analyze_stock p ip t inv N).map
        (fun r => (r.1, { r.2 with sector := "N/A", currency := "N/A" }))) ∧
    (∀ (pr : NamedSeries) (a : Analysis),
      analyze_stock p (fun _ => none) t inv N = .ok (pr, a) →
      a.sector = "N/A" ∧ a.currency = "N/A") := by
  constructor
  · rw [analyze_stock, analyze_stock]
    rcases hd : (fetch_stock_history p t).data with _ | ⟨p0, rest⟩
    · simp only [hd]
      rfl
    · simp only [hd]
      rcases hc : compute_cagr (p0 :: rest) with e | cagr
      · simp only [hc]
        rfl
      · simp only [hc]
        simp [Except.map]
  · intro pr a h
    obtain ⟨p0, rest, cagr, hd, hpr, hcc, ha⟩ :=
      analyze_stock_ok p (fun _ => none) t inv N pr a h
    subst ha
    exact ⟨rfl, rfl⟩

/-- Witness for C9: the pY run with the always-raising info lookup
succeeds and carries the "N/A" placeholders. -/
theorem metadata_failure_nonfatal_witness :
    aY.sector = "N/A" ∧ aY.currency = "N/A" :=
  (metadata_failure_nonfatal pY ipN "y" 1000 1).2 prY aY analyze_pY

/-- C10: ticker inputs equal after strip().upper() produce the same fixed
candidate list [T.NS, T.BO, T] and, against the same provider, identical
results; and the name of a successfully returned series is one of those
candidate symbols (possibly suffix-bearing, hence not necessarily the raw
user input), whose own nonempty history is exactly the returned data. -/
theorem ticker_input_invariance (p : Provider) (t u : String)
    (h : normalizeTicker t = normalizeTicker u) :
    candidatesOf (normalizeTicker t) =
      [normalizeTicker t ++ ".NS", normalizeTicker t ++ ".BO", normalizeTicker t] ∧
    fetch_stock_history p t = fetch_stock_history p u ∧
    (∀ (s : String) (hist : List PricePoint),
      fetch_stock_history p t = ⟨some s, hist⟩ →
      s ∈ candidatesOf (normalizeTicker t) ∧ hist = histOf (p s) ∧ hist ≠ []) := by
  refine ⟨rfl, ?_, ?_⟩
  · rw [fetch_stock_history, fetch_stock_history, h]
  · intro s hist hf
    exact resolveCandidates_some p _ s hist hf

/-- Witness for C10: "  ab " and "AB" normalise alike and fetch
identically. -/
theorem ticker_input_invariance_witness :
    fetch_stock_history pAB "  ab " = fetch_stock_history pAB "AB" :=
  (ticker_input_invariance pAB "  ab " "AB" (by decide)).2.1

end PortfolioLens
